import Mathlib

set_option maxHeartbeats 1000000

/-
Verification of the streaming chat orchestration core of the LLMA editor
extension (src/extension.ts).  The relevant TypeScript fragments are embedded
shallowly: the SSE stream decoder of callChatAI, the think-tag extraction of
the webview script, the bounded retry wrapper axiosPostWithRetry, the file
apply/revert coordinator, the credential gate of handleUserMessage, the
cancellation classification, and the webview history state machine.
-/

/-! ## SSE stream decoder (callChatAI, extension.ts lines 2456-2516)

The data handler does, per arriving chunk:
  buffer += chunk.toString(utf8);
  const lines = buffer.split(newline);
  buffer = lines.pop() or empty;
  for each complete line: trim, require the prefix data-space, drop 6 chars,
  skip the DONE sentinel, JSON.parse (dropping lines that fail), extract
  choices[0].delta.content / .reasoning_content with empty-string fallback,
  and if at least one is non-empty, accumulate both and invoke the callback.
-/

/-- Model of the JavaScript string split on the newline character: the parts
between newlines, one part more than the number of newlines.  For example,
splitting the empty string yields one empty part, and a trailing newline
yields a final empty part, exactly as in JavaScript. -/
def jsSplit : List Char → List (List Char)
  | [] => [[]]
  | c :: cs =>
    if c = '\n' then [] :: jsSplit cs
    else
      match jsSplit cs with
      | [] => [[c]]
      | l :: ls => (c :: l) :: ls

/-- All elements of a list except the last (the lines array after pop). -/
def jsInit {α : Type} : List α → List α
  | [] => []
  | [_] => []
  | l :: l2 :: ls => l :: jsInit (l2 :: ls)

/-- Last element of a list, with an empty default (lines.pop() with the
empty-string fallback of the source). -/
def jsLast : List (List Char) → List Char
  | [] => []
  | [l] => l
  | _ :: l2 :: ls => jsLast (l2 :: ls)

/-- Boolean test that the second list starts with the first (the startsWith
check of the source). -/
def leadsWith : List Char → List Char → Bool
  | [], _ => true
  | _ :: _, [] => false
  | p :: ps, c :: cs => p == c && leadsWith ps cs

/-- Model of the JavaScript trim(): whitespace removed from both ends. -/
def jsTrim (cs : List Char) : List Char :=
  ((cs.dropWhile Char.isWhitespace).reverse.dropWhile Char.isWhitespace).reverse

/-- The SSE event marker the decoder tests each trimmed line for. -/
def dataLineTag : List Char := "data: ".toList

/-- The terminal sentinel recognized and skipped by the decoder. -/
def doneTag : List Char := "[DONE]".toList

/-- State of the streaming data handler: the carry-over buffer, the two
accumulators, and the ordered list of (contentDelta, reasoningDelta) pairs
passed to the onUpdate callback. -/
structure DecState where
  buffer : List Char
  fullContent : String
  fullReasoning : String
  events : List (String × String)
  deriving DecidableEq

/-- Initial decoder state. -/
def initDecState : DecState := ⟨[], "", "", []⟩

/-- Processing of one complete line, parameterized by the frame parse
function (JSON.parse plus the choices[0].delta extraction with empty-string
fallback; a parse failure or an absent delta yields none).  Mirrors the loop
body of the data handler: lines without the data marker are ignored, the DONE
sentinel is skipped, and a frame is accumulated and emitted only when its
content or reasoning fragment is non-empty. -/
def processLine (parse : List Char → Option (String × String))
    (st : DecState) (line : List Char) : DecState :=
  let trimmed := jsTrim line
  if leadsWith dataLineTag trimmed then
    let dataStr := trimmed.drop 6
    if dataStr = doneTag then st
    else
      match parse dataStr with
      | none => st
      | some (contentDelta, reasoningDelta) =>
        if contentDelta ≠ "" ∨ reasoningDelta ≠ "" then
          { st with
            fullContent := st.fullContent ++ contentDelta
            fullReasoning := st.fullReasoning ++ reasoningDelta
            events := st.events ++ [(contentDelta, reasoningDelta)] }
        else st
  else st

/-- Processing of one decoded text chunk: append to the buffer, split on
newlines, hold back the trailing partial line, process the complete lines in
order. -/
def processChunk (parse : List Char → Option (String × String))
    (st : DecState) (chunk : List Char) : DecState :=
  let parts := jsSplit (st.buffer ++ chunk)
  let st2 := (jsInit parts).foldl (processLine parse) st
  { st2 with buffer := jsLast parts }

/-- Run of the decoder over a whole sequence of decoded text chunks. -/
def runDecoder (parse : List Char → Option (String × String))
    (chunks : List (List Char)) : DecState :=
  chunks.foldl (processChunk parse) initDecState

/-! ## Byte-level chunks

The source decodes each arriving byte chunk independently with
chunk.toString(utf8).  An incomplete or invalid UTF-8 sequence inside one
chunk is therefore replaced by U+FFFD even when the next chunk would have
completed it. -/

/-- Fuel-driven UTF-8 decoding with replacement of invalid or incomplete
sequences by U+FFFD, as Buffer.toString performs per chunk.  The fuel is
decremented once per decoded unit while at least one byte is consumed, so
fuel equal to the byte count always suffices. -/
def utf8DecodeGo : Nat → List Nat → List Char
  | 0, _ => []
  | _ + 1, [] => []
  | fuel + 1, b :: bs =>
    if b < 0x80 then Char.ofNat b :: utf8DecodeGo fuel bs
    else if b < 0xC2 then '�' :: utf8DecodeGo fuel bs
    else if b < 0xE0 then
      match bs with
      | b2 :: bs2 =>
        if 0x80 ≤ b2 ∧ b2 < 0xC0 then
          Char.ofNat ((b - 0xC0) * 64 + (b2 - 0x80)) :: utf8DecodeGo fuel bs2
        else '�' :: utf8DecodeGo fuel bs
      | [] => ['�']
    else if b < 0xF0 then
      match bs with
      | b2 :: b3 :: bs3 =>
        if (0x80 ≤ b2 ∧ b2 < 0xC0 ∧ 0x80 ≤ b3 ∧ b3 < 0xC0) ∧
            (b = 0xE0 → 0xA0 ≤ b2) ∧ (b = 0xED → b2 < 0xA0) then
          Char.ofNat ((b - 0xE0) * 4096 + (b2 - 0x80) * 64 + (b3 - 0x80)) ::
            utf8DecodeGo fuel bs3
        else '�' :: utf8DecodeGo fuel bs
      | _ => ['�']
    else if b < 0xF5 then
      match bs with
      | b2 :: b3 :: b4 :: bs4 =>
        if (0x80 ≤ b2 ∧ b2 < 0xC0 ∧ 0x80 ≤ b3 ∧ b3 < 0xC0 ∧ 0x80 ≤ b4 ∧ b4 < 0xC0) ∧
            (b = 0xF0 → 0x90 ≤ b2) ∧ (b = 0xF4 → b2 < 0x90) then
          Char.ofNat ((b - 0xF0) * 262144 + (b2 - 0x80) * 4096 +
              (b3 - 0x80) * 64 + (b4 - 0x80)) :: utf8DecodeGo fuel bs4
        else '�' :: utf8DecodeGo fuel bs
      | _ => ['�']
    else '�' :: utf8DecodeGo fuel bs

/-- Per-chunk text decoding, chunk.toString(utf8). -/
def utf8DecodeR (bs : List Nat) : List Char := utf8DecodeGo bs.length bs

/-- Run of the decoder over the raw byte chunks as delivered by the
transport, each decoded independently before buffering. -/
def runDecoderBytes (parse : List Char → Option (String × String))
    (chunks : List (List Nat)) : DecState :=
  chunks.foldl (fun st bs => processChunk parse st (utf8DecodeR bs)) initDecState

/-- Concatenation of a list of strings, in order. -/
def strConcat (l : List String) : String := l.foldl (· ++ ·) ""

/-- Opening part of the frame shape handled by parseFrameSimple. -/
def frameHead : List Char := "\x7b\"choices\":[\x7b\"delta\":\x7b\"content\":\"".toList

/-- Closing part of the frame shape handled by parseFrameSimple. -/
def frameTail : List Char := "\"\x7d\x7d]\x7d".toList

/-- Modelled from the external JSON.parse builtin together with the delta
extraction of the source, restricted to frames of the exact shape
data: left-brace "choices":[left-brace "delta":left-brace "content":"X"
right-braces, where X contains no quote and no backslash: such a frame parses
to a content delta X and an empty reasoning delta.  This restriction is
faithful on the concrete frames used in the theorems below. -/
def parseFrameSimple (cs : List Char) : Option (String × String) :=
  if leadsWith frameHead cs then
    let rest := cs.drop frameHead.length
    if frameTail.length ≤ rest.length ∧
        rest.drop (rest.length - frameTail.length) = frameTail then
      let mid := rest.take (rest.length - frameTail.length)
      if mid.all (fun c => !(c == '"' || c == '\\')) then some (mid.asString, "")
      else none
    else none
  else none

/-! ## Think-tag extraction (webview script, extension.ts lines 1999-2021)

At stream end the accumulated text is split by the case-insensitive regex
matching an opening think tag, a lazy body, and either the closing tag or the
end of input.  The replace with the empty string yields the final content
(then trimStart), and the exec loop collects the bodies, joined by a newline
when the accumulator is non-empty. -/

/-- Opening marker of an embedded reasoning span. -/
def openTag : List Char := "<think>".toList

/-- Closing marker of an embedded reasoning span. -/
def closeTag : List Char := "</think>".toList

/-- Case-insensitive character comparison, as the regex i flag performs. -/
def ciEq (a b : Char) : Bool := a.toLower == b.toLower

/-- Case-insensitively strip a tag from the front of a string, returning the
remainder on success. -/
def ciStrip : List Char → List Char → Option (List Char)
  | [], s => some s
  | _ :: _, [] => none
  | p :: ps, c :: cs => if ciEq p c then ciStrip ps cs else none

/-- Split at the first closing think tag: the part before it and the part
after it, or none when the tag never occurs (the lazy body with the
closing-tag alternative of the regex). -/
def splitAtClose : List Char → Option (List Char × List Char)
  | [] => none
  | c :: cs =>
    match ciStrip closeTag (c :: cs) with
    | some rest => some ([], rest)
    | none =>
      match splitAtClose cs with
      | some (mid, rest) => some (c :: mid, rest)
      | none => none

/-- Fuel-driven scan for think spans: returns the text outside all matched
spans (the replace result) and the list of span bodies (the exec loop
captures).  An opening tag without a closing tag captures everything up to
the end of input, per the end-of-input alternative of the regex.  Fuel equal
to the input length always suffices, as every step consumes at least one
character. -/
def extractThinkGo : Nat → List Char → List Char × List (List Char)
  | 0, _ => ([], [])
  | _ + 1, [] => ([], [])
  | fuel + 1, c :: cs =>
    match ciStrip openTag (c :: cs) with
    | some rest =>
      match splitAtClose rest with
      | some (mid, after) =>
        let r := extractThinkGo fuel after
        (r.1, mid :: r.2)
      | none => ([], [rest])
    | none =>
      let r := extractThinkGo fuel cs
      (c :: r.1, r.2)

/-- Think-span extraction over a complete string. -/
def extractThink (cs : List Char) : List Char × List (List Char) :=
  extractThinkGo cs.length cs

/-- Model of the JavaScript trimStart(). -/
def jsTrimStart (cs : List Char) : List Char := cs.dropWhile Char.isWhitespace

/-- Joining of the captured reasoning segments: the source appends a newline
separator only when the accumulator is already non-empty. -/
def jsAccumJoin (segs : List String) : String :=
  segs.foldl (fun acc s => if acc = "" then acc ++ s else acc ++ "\n" ++ s) ""

/-- Content kept in the conversation history and shown as final content: the
think spans removed, then trimStart (lines 1999 and 2021). -/
def stripThinkTrimStart (s : String) : String :=
  ((jsTrimStart (extractThink s.toList).1)).asString

/-- Finalization at stream end: the pair (finalContent, finalReasoning)
computed from the accumulated output (lines 1999-2021). -/
def streamEndFinalize (accumulated : String) : String × String :=
  let r := extractThink accumulated.toList
  ((jsTrimStart r.1).asString, jsAccumJoin (r.2.map List.asString))

/-! ## Bounded retry for non-streaming calls (extension.ts lines 2327-2347) -/

/-- Shape of the errors thrown by the transport: the error code, the message,
and the HTTP status of the response when one was received. -/
structure AxiosErr where
  code : Option String
  message : String
  responseStatus : Option Nat
  deriving DecidableEq

/-- Substring test (the includes check of the source). -/
def hasSub (pat : List Char) : List Char → Bool
  | [] => leadsWith pat []
  | c :: cs => leadsWith pat (c :: cs) || hasSub pat cs

/-- Classification of retryable failures: connection reset, timeout,
connection aborted, a socket hang up message, or an HTTP 5xx status
(isRetryableError, lines 2327-2332). -/
def isRetryableError (err : AxiosErr) : Bool :=
  err.code == some "ECONNRESET" || err.code == some "ETIMEDOUT" ||
  err.code == some "ECONNABORTED" ||
  hasSub "socket hang up".toList err.message.toList ||
  (match err.responseStatus with
   | some s => decide (500 ≤ s) && decide (s < 600)
   | none => false)

/-- Model of the axios CanceledError raised when the abort signal fires. -/
def canceledError : AxiosErr :=
  { code := some "ERR_CANCELED", message := "canceled", responseStatus := none }

/-- Loop body of axiosPostWithRetry: attempt i with the given remaining
budget; on failure, rethrow when the budget is exhausted or the error is not
retryable, otherwise delay (i+1) seconds and try again.  The attempt outcomes
are given by the post function; the returned list records the delays
performed, in milliseconds. -/
def axiosPostWithRetryGo {α : Type} (post : Nat → Except AxiosErr α) :
    Nat → Nat → Except AxiosErr α × List Nat
  | i, remaining =>
    match post i with
    | Except.ok v => (Except.ok v, [])
    | Except.error e =>
      match remaining with
      | 0 => (Except.error e, [])
      | r + 1 =>
        if isRetryableError e then
          let rest := axiosPostWithRetryGo post (i + 1) r
          (rest.1, (i + 1) * 1000 :: rest.2)
        else (Except.error e, [])

/-- Bounded retry wrapper (axiosPostWithRetry, lines 2334-2347); the
non-streaming branch of callChatAI invokes it with retries = 2. -/
def axiosPostWithRetry {α : Type} (post : Nat → Except AxiosErr α)
    (retries : Nat) : Except AxiosErr α × List Nat :=
  axiosPostWithRetryGo post 0 retries

/-! ## File apply and revert coordinator (extension.ts lines 552-637) -/

/-- Finite maps used for the file system and the backup map. -/
def FileMap (β : Type) : Type := String → Option β

/-- Pointwise update of a map. -/
def mapSet {β : Type} (m : FileMap β) (k : String) (v : β) : FileMap β :=
  fun k2 => if k2 = k then some v else m k2

/-- Pointwise deletion from a map. -/
def mapDel {β : Type} (m : FileMap β) (k : String) : FileMap β :=
  fun k2 => if k2 = k then none else m k2

/-- State the coordinator acts on: the file contents, the session backup map
(a backup entry of none is the absent sentinel recorded when the file did not
exist), and the workspace root when a workspace is open. -/
structure FCState where
  fs : FileMap String
  fileBackupMap : FileMap (Option String)
  workspaceRoot : Option String

/-- Absolute-path test of the path module, for rooted paths. -/
def isAbsolutePath (p : String) : Bool :=
  match p.toList with
  | c :: _ => c == '/'
  | [] => false

/-- Join of the workspace root and a relative path. -/
def joinPath (root p : String) : String := root ++ "/" ++ p

/-- Path resolution (resolveFilePath, lines 552-556): null whenever no
workspace folder is open, even for an absolute path; otherwise an absolute
path passes through and a relative one is joined to the root. -/
def resolveFilePath (ws : Option String) (p : String) : Option String :=
  match ws with
  | none => none
  | some root => some (if isAbsolutePath p then p else joinPath root p)

/-- Outcome of an apply reported to the webview. -/
inductive ApplyOutcome
  | applied (isNew : Bool)
  | noWorkspaceOpen
  deriving DecidableEq

/-- Apply of a proposed file change (handleApplyFileChange, lines 558-598):
resolve the path, capture a backup only when the path has none yet (the
current text, or the absent sentinel when the file does not exist), then
create or overwrite the target with the full proposed content. -/
def handleApplyFileChange (st : FCState) (filepath content : String) :
    FCState × ApplyOutcome :=
  match resolveFilePath st.workspaceRoot filepath with
  | none => (st, ApplyOutcome.noWorkspaceOpen)
  | some target =>
    match st.fs target with
    | some existing =>
      let backup := if (st.fileBackupMap target).isSome then st.fileBackupMap
        else mapSet st.fileBackupMap target (some existing)
      ({ st with fileBackupMap := backup, fs := mapSet st.fs target content },
        ApplyOutcome.applied false)
    | none =>
      let backup := if (st.fileBackupMap target).isSome then st.fileBackupMap
        else mapSet st.fileBackupMap target none
      ({ st with fileBackupMap := backup, fs := mapSet st.fs target content },
        ApplyOutcome.applied true)

/-- Outcome of a revert: reverted, the no-backup warning, or the silent
return when no workspace is open. -/
inductive RevertOutcome
  | reverted
  | noBackupFound
  | noWorkspace
  deriving DecidableEq

/-- Revert of a path (handleRevertFile, lines 613-637): look up the backup;
the absent sentinel deletes the file, a captured text restores it, and a
missing entry reports the no-backup warning without touching any file. -/
def handleRevertFile (st : FCState) (filepath : String) :
    FCState × RevertOutcome :=
  match resolveFilePath st.workspaceRoot filepath with
  | none => (st, RevertOutcome.noWorkspace)
  | some target =>
    match st.fileBackupMap target with
    | none => (st, RevertOutcome.noBackupFound)
    | some none => ({ st with fs := mapDel st.fs target }, RevertOutcome.reverted)
    | some (some original) =>
      ({ st with fs := mapSet st.fs target original }, RevertOutcome.reverted)

/-! ## Credential gate (getApiKey lines 2534-2546, handleUserMessage 762-770) -/

/-- The per-provider credential settings read from the configuration; none
models an unset key, an empty string a configured-but-empty one. -/
structure LlmaConfig where
  deepseekApiKey : Option String
  qwenApiKey : Option String
  doubanApiKey : Option String
  zhipuApiKey : Option String
  huggingfaceApiKey : Option String

/-- Credential lookup (getApiKey): the local provider returns the sentinel
value before the provider switch; unknown providers yield none. -/
def getApiKey (config : LlmaConfig) (model : String) : Option String :=
  if model = "local" then some "local"
  else if model = "deepseek" then config.deepseekApiKey
  else if model = "qwen" then config.qwenApiKey
  else if model = "douban" then config.doubanApiKey
  else if model = "zhipu" then config.zhipuApiKey
  else if model = "huggingface" then config.huggingfaceApiKey
  else none

/-- JavaScript falsiness of a possibly-absent string (the !apiKey test):
true for an unset key and for the empty string. -/
def isFalsyKey : Option String → Bool
  | none => true
  | some s => s == ""

/-- Result of the credential check at the top of a chat request. -/
inductive CredGate
  | missingCredential
  | proceed (apiKey : Option String)
  deriving DecidableEq

/-- Credential check of handleUserMessage (lines 762-770): for any model
other than local, a falsy key reports the missing-credential error and
returns before the network call; otherwise the request proceeds with the
looked-up key. -/
def credentialGate (config : LlmaConfig) (model : String) : CredGate :=
  let apiKey := getApiKey config model
  if model != "local" && isFalsyKey apiKey then CredGate.missingCredential
  else CredGate.proceed apiKey

/-! ## Cancellation classification (callChatAI 2442-2516, handleUserMessage
846-864)

The abort signal is passed to axios; when it fires, axios raises a
CanceledError (recognized by axios.isCancel, the name CanceledError, or the
message canceled).  The non-streaming wrapper and the pre-response streaming
catch resolve such an error to an empty result instead of rethrowing; an
error event on the response stream rejects, and the catch of
handleUserMessage shows the stopped-by-user warning for a cancellation and an
error message for anything else. -/

/-- Shape of a thrown JavaScript error as far as the classification reads
it: the name, the message, and whether axios.isCancel accepts it. -/
structure JsError where
  name : String
  message : String
  isAxiosCancel : Bool
  deriving DecidableEq

/-- The cancellation test of the catch in handleUserMessage (line 848). -/
def isUserCancelErr (e : JsError) : Bool :=
  e.isAxiosCancel || e.name == "CanceledError" || e.message == "canceled"

/-- Non-streaming branch of callChatAI (lines 2442-2453): a cancellation is
absorbed into an empty successful result, any other error is rethrown. -/
def nonStreamingResult (r : Except JsError String) : Except JsError String :=
  match r with
  | Except.ok s => Except.ok s
  | Except.error e => if e.isAxiosCancel then Except.ok "" else Except.error e

/-- How a streaming transport run ends: a normal end event or an error
event carrying the thrown error. -/
inductive StreamEndKind
  | ended
  | errored (e : JsError)
  deriving DecidableEq

/-- Transport-level result of the streaming post: the initial request may
throw, or a response stream delivers byte chunks and then terminates. -/
inductive StreamTransport
  | postFailed (e : JsError)
  | streamed (chunks : List (List Nat)) (terminal : StreamEndKind)

/-- Streaming branch of callChatAI (lines 2456-2516): a failing initial post
resolves empty on cancellation and rejects otherwise; a streamed response is
decoded, the end event resolves with the accumulated content, and an error
event rejects. -/
def streamingResult (parse : List Char → Option (String × String))
    (t : StreamTransport) : Except JsError String :=
  match t with
  | StreamTransport.postFailed e =>
    if e.isAxiosCancel then Except.ok "" else Except.error e
  | StreamTransport.streamed chunks terminal =>
    match terminal with
    | StreamEndKind.ended => Except.ok (runDecoderBytes parse chunks).fullContent
    | StreamEndKind.errored e => Except.error e

/-- What the chat surface is told after the awaited call settles. -/
inductive UiNotice
  | completedStream (content : String)
  | warningStopped
  | errorShown (msg : String)
  deriving DecidableEq

/-- The try/catch of handleUserMessage around the streaming call (lines
836-864): a resolved call flows to the stream-end finalization, a rejected
one is classified into the stopped-by-user warning or an error message. -/
def handleUserMessageUi (parse : List Char → Option (String × String))
    (t : StreamTransport) : UiNotice :=
  match streamingResult parse t with
  | Except.ok s => UiNotice.completedStream s
  | Except.error e =>
    if isUserCancelErr e then UiNotice.warningStopped
    else UiNotice.errorShown ("❌ 错误: " ++ e.message)

/-! ## Webview history state machine (webview script, lines 1936-2026; sender
side handleUserMessage, lines 833-869)

The extension posts streamStart, a streamUpdate per delta, and then: on
success streamEnd (line 844) followed by the unconditional streamEnd of the
finally block (line 868); on a caught error the warning or error message and
then the finally streamEnd.  The streamEnd handler of the webview pushes the
think-stripped accumulated content onto the history unconditionally. -/

/-- Messages posted to the webview that the history machine reacts to. -/
inductive WebviewMsg
  | streamStart
  | streamUpdate (content reasoning : String)
  | streamEnd
  | addWarningResponse (text : String)
  | addErrorResponse (text : String)

/-- Webview-side state: the conversation history as (role, content) pairs,
the generation flag, the two accumulators, and whether a current streaming
message element exists. -/
structure WebviewState where
  history : List (String × String)
  isGenerating : Bool
  currentAiContent : String
  currentAiReasoning : String
  hasCurrentDiv : Bool
  deriving DecidableEq

/-- Webview state when a chat surface is created. -/
def webviewInit : WebviewState :=
  { history := []
    isGenerating := false
    currentAiContent := ""
    currentAiReasoning := ""
    hasCurrentDiv := false }

/-- One step of the webview message handler (lines 1936-2026): streamStart
resets the accumulators and creates the streaming element; streamUpdate
appends the fragments when the element exists; streamEnd pushes the
think-stripped accumulated content onto the history unconditionally and
clears the element; the warning and error messages only end the generating
state. -/
def webviewStep (st : WebviewState) (m : WebviewMsg) : WebviewState :=
  match m with
  | WebviewMsg.streamStart =>
    { st with
      isGenerating := true
      currentAiContent := ""
      currentAiReasoning := ""
      hasCurrentDiv := true }
  | WebviewMsg.streamUpdate c r =>
    if st.hasCurrentDiv then
      { st with
        currentAiContent := st.currentAiContent ++ c
        currentAiReasoning := st.currentAiReasoning ++ r }
    else st
  | WebviewMsg.streamEnd =>
    { st with
      history := st.history ++ [("assistant", stripThinkTrimStart st.currentAiContent)]
      isGenerating := false
      hasCurrentDiv := false }
  | WebviewMsg.addWarningResponse _ => { st with isGenerating := false }
  | WebviewMsg.addErrorResponse _ => { st with isGenerating := false }

/-- How one generation ends on the extension side. -/
inductive GenOutcome
  | completed
  | canceled
  | failed (msg : String)

/-- The message sequence handleUserMessage posts for one generation with the
given streamed deltas (lines 833-869): streamStart, the updates, then on
success the streamEnd of line 844 plus the streamEnd of the finally block,
and on cancellation or failure the warning or error message plus the
streamEnd of the finally block. -/
def generationTrace (deltas : List (String × String)) :
    GenOutcome → List WebviewMsg
  | GenOutcome.completed =>
    WebviewMsg.streamStart ::
      deltas.map (fun d => WebviewMsg.streamUpdate d.1 d.2) ++
      [WebviewMsg.streamEnd, WebviewMsg.streamEnd]
  | GenOutcome.canceled =>
    WebviewMsg.streamStart ::
      deltas.map (fun d => WebviewMsg.streamUpdate d.1 d.2) ++
      [WebviewMsg.addWarningResponse "⚠️ 已停止生成对话", WebviewMsg.streamEnd]
  | GenOutcome.failed msg =>
    WebviewMsg.streamStart ::
      deltas.map (fun d => WebviewMsg.streamUpdate d.1 d.2) ++
      [WebviewMsg.addErrorResponse msg, WebviewMsg.streamEnd]

/-- Run of the webview machine over a message sequence. -/
def webviewRun (msgs : List WebviewMsg) (st : WebviewState) : WebviewState :=
  msgs.foldl webviewStep st

/-! ## Concrete inputs for the counterexamples and witnesses -/

/-- Bytes of a pure-ASCII string. -/
def asciiBytes (s : String) : List Nat := s.toList.map Char.toNat

/-- ASCII part of the counterexample SSE frame before the content value. -/
def cexPre : String := "data: \x7b\"choices\":[\x7b\"delta\":\x7b\"content\":\""

/-- ASCII part of the counterexample SSE frame after the content value. -/
def cexSuf : String := "\"\x7d\x7d]\x7d"

/-- One complete SSE frame whose content value is the two-byte UTF-8
character e-acute, followed by the newline. -/
def cexAllBytes : List Nat :=
  asciiBytes cexPre ++ [0xC3, 0xA9] ++ asciiBytes cexSuf ++ [10]

/-- First fragment of the split that cuts the two-byte character. -/
def cexBytes1 : List Nat := asciiBytes cexPre ++ [0xC3]

/-- Second fragment of the split that cuts the two-byte character. -/
def cexBytes2 : List Nat := [0xA9] ++ asciiBytes cexSuf ++ [10]

/-- An empty file system. -/
def emptyFs : FileMap String := fun _ => none

/-- Coordinator state with no workspace open. -/
def noWorkspaceState : FCState :=
  { fs := emptyFs, fileBackupMap := fun _ => none, workspaceRoot := none }

/-- Coordinator state with a workspace and one existing file, used by the
witnesses. -/
def wsState : FCState :=
  { fs := fun k => if k = "/ws/a.txt" then some "original" else none
    fileBackupMap := fun _ => none
    workspaceRoot := some "/ws" }

/-- A retryable connection-reset error, used by the witnesses. -/
def econnresetErr : AxiosErr :=
  { code := some "ECONNRESET", message := "read ECONNRESET", responseStatus := none }

/-- A non-retryable HTTP 404 error, used by the witnesses. -/
def http404Err : AxiosErr :=
  { code := some "ERR_BAD_REQUEST"
    message := "Request failed with status code 404"
    responseStatus := some 404 }

/-- Attempt outcomes failing retryably twice and then succeeding. -/
def postTwiceThenOk : Nat → Except AxiosErr String :=
  fun i => if i < 2 then Except.error econnresetErr else Except.ok "done"

/-- A mid-stream cancellation error as axios raises it on abort. -/
def canceledJsError : JsError :=
  { name := "CanceledError", message := "canceled", isAxiosCancel := true }

/-- A genuine network failure, not a cancellation. -/
def networkJsError : JsError :=
  { name := "Error", message := "socket hang up", isAxiosCancel := false }

/-- Configuration with no key configured at all. -/
def emptyConfig : LlmaConfig :=
  { deepseekApiKey := none
    qwenApiKey := none
    doubanApiKey := none
    zhipuApiKey := none
    huggingfaceApiKey := none }

/-- Invariant tying the accumulators to the emitted events: every emitted
pair has a non-empty component, and the accumulators are the in-order
concatenations of the emitted fragments. -/
def decInv (st : DecState) : Prop :=
  (∀ ev ∈ st.events, ev.1 ≠ "" ∨ ev.2 ≠ "") ∧
  st.fullContent = strConcat (st.events.map Prod.fst) ∧
  st.fullReasoning = strConcat (st.events.map Prod.snd)

/-! ## Lemmas about the line splitter -/

theorem jsSplit_ne_nil (cs : List Char) : jsSplit cs ≠ [] := by
  cases cs with
  | nil => simp [jsSplit]
  | cons c cs =>
    unfold jsSplit
    split
    · simp
    · split <;> simp

theorem jsSplit_exists_cons (cs : List Char) : ∃ l ls, jsSplit cs = l :: ls := by
  cases h : jsSplit cs with
  | nil => exact absurd h (jsSplit_ne_nil cs)
  | cons l ls => exact ⟨l, ls, rfl⟩

theorem jsInit_append_cons {α : Type} (xs : List α) (y : α) (ys : List α) :
    jsInit (xs ++ y :: ys) = xs ++ jsInit (y :: ys) := by
  induction xs with
  | nil => rfl
  | cons x xs ih =>
    cases xs with
    | nil => simp [jsInit]
    | cons x2 xs2 => simpa [jsInit] using ih

theorem jsLast_append_cons (xs : List (List Char)) (y : List Char)
    (ys : List (List Char)) : jsLast (xs ++ y :: ys) = jsLast (y :: ys) := by
  induction xs with
  | nil => rfl
  | cons x xs ih =>
    cases xs with
    | nil => simp [jsLast]
    | cons x2 xs2 => simpa [jsLast] using ih

theorem jsSplit_of_not_mem (cs : List Char) (h : '\n' ∉ cs) : jsSplit cs = [cs] := by
  induction cs with
  | nil => rfl
  | cons c cs ih =>
    have hc : c ≠ '\n' := fun e => h (by simp [e])
    have hcs : '\n' ∉ cs := fun m => h (List.mem_cons_of_mem _ m)
    simp [jsSplit, hc, ih hcs]

theorem jsLast_jsSplit_not_mem (cs : List Char) : '\n' ∉ jsLast (jsSplit cs) := by
  induction cs with
  | nil => simp [jsSplit, jsLast]
  | cons c cs ih =>
    obtain ⟨l, ls, h⟩ := jsSplit_exists_cons cs
    by_cases hc : c = '\n'
    · subst hc
      rw [h] at ih
      simpa [jsSplit, h, jsLast] using ih
    · rw [h] at ih
      cases ls with
      | nil =>
        have : jsSplit (c :: cs) = [c :: l] := by simp [jsSplit, hc, h]
        rw [this]
        simp [jsLast] at ih ⊢
        exact ⟨Ne.symm hc, ih⟩
      | cons m ms =>
        have : jsSplit (c :: cs) = (c :: l) :: m :: ms := by simp [jsSplit, hc, h]
        rw [this]
        simpa [jsLast] using ih

theorem jsSplit_append (x y : List Char) :
    jsSplit (x ++ y) = jsInit (jsSplit x) ++ jsSplit (jsLast (jsSplit x) ++ y) := by
  induction x with
  | nil => simp [jsSplit, jsInit, jsLast]
  | cons c x ih =>
    obtain ⟨l, ls, h⟩ := jsSplit_exists_cons x
    rw [h] at ih
    by_cases hc : c = '\n'
    · subst hc
      have h1 : jsSplit ('\n' :: x) = [] :: l :: ls := by simp [jsSplit, h]
      have h2 : jsSplit ('\n' :: (x ++ y)) = [] :: jsSplit (x ++ y) := by
        simp [jsSplit]
      rw [List.cons_append, h2, h1]
      simp [jsInit, jsLast, ih]
    · have h1 : jsSplit (c :: x) = (c :: l) :: ls := by simp [jsSplit, hc, h]
      cases ls with
      | nil =>
        obtain ⟨k, ks, hK⟩ := jsSplit_exists_cons (l ++ y)
        have hxy : jsSplit (x ++ y) = k :: ks := by
          rw [ih]
          simpa [jsInit, jsLast] using hK
        have h2 : jsSplit (c :: (x ++ y)) = (c :: k) :: ks := by
          simp [jsSplit, hc, hxy]
        have h3 : jsSplit (c :: (l ++ y)) = (c :: k) :: ks := by
          simp [jsSplit, hc, hK]
        rw [List.cons_append, h2, h1]
        simpa [jsInit, jsLast] using h3.symm
      | cons m ms =>
        have h2 : jsSplit (c :: (x ++ y)) =
            (c :: l) :: (jsInit (m :: ms) ++ jsSplit (jsLast (m :: ms) ++ y)) := by
          have hxy : jsSplit (x ++ y) =
              l :: (jsInit (m :: ms) ++ jsSplit (jsLast (m :: ms) ++ y)) := by
            rw [ih]; simp [jsInit, jsLast]
          simp [jsSplit, hc, hxy]
        rw [List.cons_append, h2, h1]
        simp [jsInit, jsLast]

/-! ## Chunk-boundary invariance of the decoder -/

theorem processLine_buffer_set (parse : List Char → Option (String × String))
    (st : DecState) (b : List Char) (line : List Char) :
    processLine parse { st with buffer := b } line =
      { processLine parse st line with buffer := b } := by
  unfold processLine
  dsimp only
  split
  · split
    · rfl
    · split
      · rfl
      · split
        · rfl
        · rfl
  · rfl

theorem foldl_processLine_buffer_set (parse : List Char → Option (String × String))
    (lines : List (List Char)) (st : DecState) (b : List Char) :
    lines.foldl (processLine parse) { st with buffer := b } =
      { lines.foldl (processLine parse) st with buffer := b } := by
  induction lines generalizing st with
  | nil => rfl
  | cons l lines ih => simp [List.foldl_cons, processLine_buffer_set, ih]

theorem processChunk_buffer (parse : List Char → Option (String × String))
    (st : DecState) (chunk : List Char) :
    (processChunk parse st chunk).buffer = jsLast (jsSplit (st.buffer ++ chunk)) := rfl

theorem processChunk_append (parse : List Char → Option (String × String))
    (st : DecState) (a b : List Char) :
    processChunk parse st (a ++ b) = processChunk parse (processChunk parse st a) b := by
  obtain ⟨k, ks, hK⟩ := jsSplit_exists_cons (jsLast (jsSplit (st.buffer ++ a)) ++ b)
  unfold processChunk
  dsimp only
  rw [← List.append_assoc, jsSplit_append (st.buffer ++ a) b, hK,
    jsInit_append_cons, jsLast_append_cons, List.foldl_append]
  conv_rhs => rw [foldl_processLine_buffer_set]

theorem processChunk_nil (parse : List Char → Option (String × String))
    (st : DecState) (h : '\n' ∉ st.buffer) : processChunk parse st [] = st := by
  unfold processChunk
  rw [List.append_nil, jsSplit_of_not_mem st.buffer h]
  rfl

theorem foldl_processChunk_join (parse : List Char → Option (String × String))
    (css : List (List Char)) (st : DecState) (h : '\n' ∉ st.buffer) :
    css.foldl (processChunk parse) st = processChunk parse st css.flatten := by
  induction css generalizing st with
  | nil => exact (processChunk_nil parse st h).symm
  | cons c css ih =>
    rw [List.foldl_cons, List.flatten_cons, processChunk_append]
    exact ih (processChunk parse st c)
      (by rw [processChunk_buffer]; exact jsLast_jsSplit_not_mem _)

theorem runDecoderBytes_eq_runDecoder (parse : List Char → Option (String × String))
    (bss : List (List Nat)) :
    runDecoderBytes parse bss = runDecoder parse (bss.map utf8DecodeR) := by
  unfold runDecoderBytes runDecoder
  rw [List.foldl_map]

theorem strConcat_append_singleton (l : List String) (s : String) :
    strConcat (l ++ [s]) = strConcat l ++ s := by
  simp [strConcat, List.foldl_append]

theorem decInv_initDecState : decInv initDecState := by
  refine ⟨?_, rfl, rfl⟩
  intro ev hev
  simp [initDecState] at hev

theorem decInv_processLine (parse : List Char → Option (String × String))
    (st : DecState) (l : List Char) (h : decInv st) :
    decInv (processLine parse st l) := by
  obtain ⟨h1, h2, h3⟩ := h
  unfold processLine
  dsimp only
  split
  · split
    · exact ⟨h1, h2, h3⟩
    · split
      · exact ⟨h1, h2, h3⟩
      · split
        · next contentDelta reasoningDelta heq hcr =>
          refine ⟨?_, ?_, ?_⟩
          · intro ev hev
            rcases List.mem_append.mp hev with hm | hm
            · exact h1 ev hm
            · simp at hm
              subst hm
              exact hcr
          · simp [List.map_append, strConcat_append_singleton, h2]
          · simp [List.map_append, strConcat_append_singleton, h3]
        · exact ⟨h1, h2, h3⟩
  · exact ⟨h1, h2, h3⟩

theorem decInv_foldl_processLine (parse : List Char → Option (String × String))
    (lines : List (List Char)) (st : DecState) (h : decInv st) :
    decInv (lines.foldl (processLine parse) st) := by
  induction lines generalizing st with
  | nil => exact h
  | cons l lines ih => exact ih _ (decInv_processLine parse st l h)

theorem decInv_buffer_set (st : DecState) (b : List Char) (h : decInv st) :
    decInv { st with buffer := b } := h

theorem decInv_processChunk (parse : List Char → Option (String × String))
    (st : DecState) (chunk : List Char) (h : decInv st) :
    decInv (processChunk parse st chunk) := by
  unfold processChunk
  exact decInv_buffer_set _ _ (decInv_foldl_processLine parse _ st h)

theorem decInv_runDecoderBytes (parse : List Char → Option (String × String))
    (bss : List (List Nat)) : decInv (runDecoderBytes parse bss) := by
  unfold runDecoderBytes
  induction bss using List.reverseRecOn with
  | nil => exact decInv_initDecState
  | append_singleton bss bs ih =>
    rw [List.foldl_append]
    exact decInv_processChunk parse _ _ ih

/-- C2 (amended): for all fragmentations of the SSE byte stream whose chunks
decode to the same total text — in particular all fragmentations at UTF-8
character boundaries — the decoder of callChatAI reaches the same state: the
same emitted delta sequence, and content and reasoning concatenations equal
to the same two final strings.  The amendment is forced because each chunk is
decoded independently, so a split inside a multi-byte character changes the
decoded text (see the counterexample). -/
theorem sse_chunk_invariance (parse : List Char → Option (String × String))
    (bss1 bss2 : List (List Nat))
    (h : (bss1.map utf8DecodeR).flatten = (bss2.map utf8DecodeR).flatten) :
    (runDecoderBytes parse bss1).events = (runDecoderBytes parse bss2).events ∧
    strConcat ((runDecoderBytes parse bss1).events.map Prod.fst) =
      strConcat ((runDecoderBytes parse bss2).events.map Prod.fst) ∧
    strConcat ((runDecoderBytes parse bss1).events.map Prod.snd) =
      strConcat ((runDecoderBytes parse bss2).events.map Prod.snd) := by
  have key : runDecoderBytes parse bss1 = runDecoderBytes parse bss2 := by
    rw [runDecoderBytes_eq_runDecoder, runDecoderBytes_eq_runDecoder]
    unfold runDecoder
    rw [foldl_processChunk_join parse _ _ (List.not_mem_nil _),
      foldl_processChunk_join parse _ _ (List.not_mem_nil _), h]
  rw [key]
  exact ⟨rfl, rfl, rfl⟩

/-- Witness for C2 (amended): a two-byte stream cut at a character boundary
yields the same decoder state as the unfragmented stream. -/
theorem sse_chunk_invariance_witness :
    (runDecoderBytes parseFrameSimple [[104, 105]]).events =
      (runDecoderBytes parseFrameSimple [[104], [105]]).events ∧
    strConcat ((runDecoderBytes parseFrameSimple [[104, 105]]).events.map Prod.fst) =
      strConcat ((runDecoderBytes parseFrameSimple [[104], [105]]).events.map Prod.fst) ∧
    strConcat ((runDecoderBytes parseFrameSimple [[104, 105]]).events.map Prod.snd) =
      strConcat ((runDecoderBytes parseFrameSimple [[104], [105]]).events.map Prod.snd) :=
  sse_chunk_invariance parseFrameSimple [[104, 105]] [[104], [105]] (by decide)

/-- C2 as literally stated is false: the same logical SSE byte stream, split
once inside the two-byte UTF-8 character of the content value, makes the
decoder emit a different content concatenation (two replacement characters
instead of the e-acute), because each chunk is decoded to text independently
before buffering. -/
theorem sse_chunk_invariance_cex :
    cexBytes1 ++ cexBytes2 = cexAllBytes ∧
    (runDecoderBytes parseFrameSimple [cexAllBytes]).fullContent = "é" ∧
    (runDecoderBytes parseFrameSimple [cexBytes1, cexBytes2]).fullContent = "��" ∧
    (runDecoderBytes parseFrameSimple [cexAllBytes]).fullContent ≠
      (runDecoderBytes parseFrameSimple [cexBytes1, cexBytes2]).fullContent := by
  exact ⟨by decide, by decide, by decide, by decide⟩

/-- C10: the delta callback is invoked only for frames with a non-empty
content or reasoning fragment, and the string the streaming call resolves
with equals the in-order concatenation of all content fragments passed to
the callback. -/
theorem delta_emission_nonempty_and_concat
    (parse : List Char → Option (String × String)) (bss : List (List Nat)) :
    (∀ ev ∈ (runDecoderBytes parse bss).events, ev.1 ≠ "" ∨ ev.2 ≠ "") ∧
    (runDecoderBytes parse bss).fullContent =
      strConcat ((runDecoderBytes parse bss).events.map Prod.fst) := by
  have h := decInv_runDecoderBytes parse bss
  exact ⟨h.1, h.2.1⟩

/-- Witness for C10 at the concrete one-frame stream. -/
theorem delta_emission_nonempty_and_concat_witness :
    (("é" : String) ≠ "" ∨ ("" : String) ≠ "") ∧
    (runDecoderBytes parseFrameSimple [cexAllBytes]).fullContent =
      strConcat ((runDecoderBytes parseFrameSimple [cexAllBytes]).events.map Prod.fst) :=
  ⟨(delta_emission_nonempty_and_concat parseFrameSimple [cexAllBytes]).1 ("é", "") (by decide),
    (delta_emission_nonempty_and_concat parseFrameSimple [cexAllBytes]).2⟩

/-- C3: reasoning-tag extraction on the accumulated output.  The input
before-think-mid-endthink-after yields finalContent beforeafter and
finalReasoning mid; the input before-think-unterminated, with no closing tag
by stream end, yields finalContent before and routes the rest, unterminated,
to reasoning. -/
theorem think_tag_extraction_examples :
    streamEndFinalize "before<think>mid</think>after" = ("beforeafter", "mid") ∧
    streamEndFinalize "before<think>unterminated" = ("before", "unterminated") := by
  exact ⟨by decide, by decide⟩

/-- C1 is violated by the code: handleUserMessage posts streamEnd both on
success (line 844) and unconditionally in its finally block (line 868), and
the streamEnd handler of the webview pushes onto the history unconditionally
(line 2022).  Evaluating the embedded machines at the failing inputs: a
canceled generation with the partial delta appends that partial text to the
history (the claim and spec say nothing is appended), and a completed
generation appends its content twice (the claim says exactly once). -/
theorem history_append_bug :
    (webviewRun (generationTrace [("Partial answer", "")] GenOutcome.canceled)
        webviewInit).history = [("assistant", "Partial answer")] ∧
    (webviewRun (generationTrace [("Hello", "")] GenOutcome.completed)
        webviewInit).history = [("assistant", "Hello"), ("assistant", "Hello")] := by
  exact ⟨by decide, by decide⟩

/-- C7: a raised cancellation is kept distinct from network and provider
failures at every layer: a mid-stream cancellation rejection is classified
into the stopped-by-user warning and never into an error message, a
cancellation of the initial post (streaming or non-streaming) resolves to
the empty successful result rather than an error, and a non-cancellation
rejection is shown as an error message. -/
theorem cancellation_distinct_outcome (parse : List Char → Option (String × String))
    (chunks : List (List Nat)) (e : JsError) :
    (isUserCancelErr e = true →
      handleUserMessageUi parse (StreamTransport.streamed chunks (StreamEndKind.errored e)) =
        UiNotice.warningStopped) ∧
    (e.isAxiosCancel = true →
      streamingResult parse (StreamTransport.postFailed e) = Except.ok "" ∧
      nonStreamingResult (Except.error e) = Except.ok "") ∧
    (isUserCancelErr e = false →
      handleUserMessageUi parse (StreamTransport.streamed chunks (StreamEndKind.errored e)) =
        UiNotice.errorShown ("❌ 错误: " ++ e.message)) ∧
    (∀ m, UiNotice.warningStopped ≠ UiNotice.errorShown m) := by
  refine ⟨?_, ?_, ?_, ?_⟩
  · intro h
    simp [handleUserMessageUi, streamingResult, h]
  · intro h
    simp [streamingResult, nonStreamingResult, h]
  · intro h
    simp [handleUserMessageUi, streamingResult, h]
  · intro m h
    exact UiNotice.noConfusion h

/-- Witness for C7 at a concrete cancellation and a concrete network
failure. -/
theorem cancellation_distinct_outcome_witness :
    handleUserMessageUi parseFrameSimple
        (StreamTransport.streamed [cexAllBytes] (StreamEndKind.errored canceledJsError)) =
      UiNotice.warningStopped ∧
    streamingResult parseFrameSimple (StreamTransport.postFailed canceledJsError) =
      Except.ok "" ∧
    handleUserMessageUi parseFrameSimple
        (StreamTransport.streamed [cexAllBytes] (StreamEndKind.errored networkJsError)) =
      UiNotice.errorShown ("❌ 错误: " ++ "socket hang up") :=
  ⟨(cancellation_distinct_outcome parseFrameSimple [cexAllBytes] canceledJsError).1 (by decide),
    ((cancellation_distinct_outcome parseFrameSimple [cexAllBytes] canceledJsError).2.1
      (by decide)).1,
    (cancellation_distinct_outcome parseFrameSimple [cexAllBytes] networkJsError).2.2.1
      (by decide)⟩

/-- C8: the local provider is valid without a configured credential, the
sentinel value being used as the key, and every other provider with a falsy
configured key is stopped by the missing-credential error before the network
call (the gate returns missingCredential, on which handleUserMessage returns
before invoking callChatAI). -/
theorem missing_credential_gate (config : LlmaConfig) (model : String) :
    credentialGate config "local" = CredGate.proceed (some "local") ∧
    (model ≠ "local" → isFalsyKey (getApiKey config model) = true →
      credentialGate config model = CredGate.missingCredential) ∧
    (config.deepseekApiKey = none →
      credentialGate config "deepseek" = CredGate.missingCredential) ∧
    (config.qwenApiKey = none →
      credentialGate config "qwen" = CredGate.missingCredential) ∧
    (config.doubanApiKey = none →
      credentialGate config "douban" = CredGate.missingCredential) ∧
    (config.zhipuApiKey = none →
      credentialGate config "zhipu" = CredGate.missingCredential) ∧
    (config.huggingfaceApiKey = none →
      credentialGate config "huggingface" = CredGate.missingCredential) := by
  refine ⟨rfl, ?_, ?_, ?_, ?_, ?_, ?_⟩
  · intro h hk
    simp [credentialGate, hk, h]
  all_goals intro h
  all_goals simp [credentialGate, getApiKey, isFalsyKey, h]

/-- Witness for C8 with no key configured. -/
theorem missing_credential_gate_witness :
    credentialGate emptyConfig "local" = CredGate.proceed (some "local") ∧
    credentialGate emptyConfig "deepseek" = CredGate.missingCredential :=
  ⟨(missing_credential_gate emptyConfig "deepseek").1,
    (missing_credential_gate emptyConfig "deepseek").2.2.1 rfl⟩

/-- C9 (amended): with a workspace open, a relative path is resolved against
the workspace root and an absolute path passes through unchanged; with no
workspace open, apply fails with the no-workspace error for every path,
absolute paths included, because resolveFilePath returns null before testing
absoluteness.  The amendment is forced by the counterexample: an absolute
path does not succeed when no workspace is open. -/
theorem apply_path_resolution (st : FCState) (p c root : String) :
    (st.workspaceRoot = none →
      handleApplyFileChange st p c = (st, ApplyOutcome.noWorkspaceOpen)) ∧
    resolveFilePath (some root) p =
      some (if isAbsolutePath p then p else joinPath root p) := by
  constructor
  · intro h
    simp [handleApplyFileChange, resolveFilePath, h]
  · rfl

/-- C9 as stated is false: with no workspace open, an apply with an absolute
path reports the no-workspace error and changes nothing instead of
succeeding. -/
theorem apply_absolute_no_workspace_cex :
    isAbsolutePath "/tmp/a.txt" = true ∧
    handleApplyFileChange noWorkspaceState "/tmp/a.txt" "content" =
      (noWorkspaceState, ApplyOutcome.noWorkspaceOpen) :=
  ⟨by decide, rfl⟩

/-- Witness for C9 (amended) at concrete states and paths. -/
theorem apply_path_resolution_witness :
    handleApplyFileChange noWorkspaceState "rel.txt" "c" =
      (noWorkspaceState, ApplyOutcome.noWorkspaceOpen) ∧
    resolveFilePath (some "/ws") "rel.txt" =
      some (if isAbsolutePath "rel.txt" then "rel.txt" else joinPath "/ws" "rel.txt") :=
  ⟨(apply_path_resolution noWorkspaceState "rel.txt" "c" "/ws").1 rfl,
    (apply_path_resolution noWorkspaceState "rel.txt" "c" "/ws").2⟩

theorem axiosPostWithRetryGo_ok {α : Type} (post : Nat → Except AxiosErr α)
    (i r : Nat) (v : α) (h : post i = Except.ok v) :
    axiosPostWithRetryGo post i r = (Except.ok v, []) := by
  unfold axiosPostWithRetryGo
  simp [h]

theorem axiosPostWithRetryGo_last {α : Type} (post : Nat → Except AxiosErr α)
    (i : Nat) (e : AxiosErr) (h : post i = Except.error e) :
    axiosPostWithRetryGo post i 0 = (Except.error e, []) := by
  unfold axiosPostWithRetryGo
  simp [h]

theorem axiosPostWithRetryGo_stop {α : Type} (post : Nat → Except AxiosErr α)
    (i r : Nat) (e : AxiosErr) (h : post i = Except.error e)
    (hr : isRetryableError e = false) :
    axiosPostWithRetryGo post i (r + 1) = (Except.error e, []) := by
  unfold axiosPostWithRetryGo
  simp [h, hr]

theorem axiosPostWithRetryGo_retry {α : Type} (post : Nat → Except AxiosErr α)
    (i r : Nat) (e : AxiosErr) (h : post i = Except.error e)
    (hr : isRetryableError e = true) :
    axiosPostWithRetryGo post i (r + 1) =
      ((axiosPostWithRetryGo post (i + 1) r).1,
        (i + 1) * 1000 :: (axiosPostWithRetryGo post (i + 1) r).2) := by
  conv_lhs => unfold axiosPostWithRetryGo
  simp [h, hr]

theorem axiosPostWithRetryGo_delays_le {α : Type} (post : Nat → Except AxiosErr α) :
    ∀ remaining i, (axiosPostWithRetryGo post i remaining).2.length ≤ remaining := by
  intro remaining
  induction remaining with
  | zero =>
    intro i
    cases hp : post i with
    | ok v => simp [axiosPostWithRetryGo_ok post i 0 v hp]
    | error e => simp [axiosPostWithRetryGo_last post i e hp]
  | succ r ih =>
    intro i
    cases hp : post i with
    | ok v => simp [axiosPostWithRetryGo_ok post i (r + 1) v hp]
    | error e =>
      by_cases hr : isRetryableError e
      · rw [axiosPostWithRetryGo_retry post i r e hp hr]
        simpa [Nat.succ_le_succ_iff] using ih (i + 1)
      · simp [axiosPostWithRetryGo_stop post i r e hp
          (by simpa using hr)]

/-- C4: the non-streaming call is retried at most 2 times; a run failing
retryably twice and succeeding on the third attempt returns the success
after exactly the backoff delays of 1000 then 2000 milliseconds; a
non-retryable first failure is rethrown with zero delays; a plain 4xx
response and the axios cancellation error are classified non-retryable; and
a delay is only ever performed after a retryable first failure. -/
theorem nonstreaming_retry_policy (α : Type) :
    (∀ post : Nat → Except AxiosErr α, (axiosPostWithRetry post 2).2.length ≤ 2) ∧
    (∀ (post : Nat → Except AxiosErr α) (e0 e1 : AxiosErr) (v : α),
      post 0 = Except.error e0 → isRetryableError e0 = true →
      post 1 = Except.error e1 → isRetryableError e1 = true →
      post 2 = Except.ok v →
      axiosPostWithRetry post 2 = (Except.ok v, [1000, 2000])) ∧
    (∀ (post : Nat → Except AxiosErr α) (e : AxiosErr),
      post 0 = Except.error e → isRetryableError e = false →
      axiosPostWithRetry post 2 = (Except.error e, [])) ∧
    (∀ (e : AxiosErr) (s : Nat), e.responseStatus = some s → s < 500 →
      e.code ≠ some "ECONNRESET" → e.code ≠ some "ETIMEDOUT" →
      e.code ≠ some "ECONNABORTED" →
      hasSub "socket hang up".toList e.message.toList = false →
      isRetryableError e = false) ∧
    isRetryableError canceledError = false ∧
    (∀ post : Nat → Except AxiosErr α, (axiosPostWithRetry post 2).2 ≠ [] →
      ∃ e, post 0 = Except.error e ∧ isRetryableError e = true) := by
  refine ⟨?_, ?_, ?_, ?_, by decide, ?_⟩
  · intro post
    exact axiosPostWithRetryGo_delays_le post 2 0
  · intro post e0 e1 v h0 hr0 h1 hr1 h2
    unfold axiosPostWithRetry
    rw [show (2 : Nat) = 1 + 1 from rfl, axiosPostWithRetryGo_retry post 0 1 e0 h0 hr0,
      show (0 : Nat) + 1 = 0 + 1 from rfl,
      show (1 : Nat) = 0 + 1 from rfl, axiosPostWithRetryGo_retry post (0 + 1) 0 e1 h1 hr1,
      axiosPostWithRetryGo_ok post (0 + 1 + 1) 0 v h2]
  · intro post e h0 hr
    unfold axiosPostWithRetry
    rw [show (2 : Nat) = 1 + 1 from rfl, axiosPostWithRetryGo_stop post 0 1 e h0 hr]
  · intro e s hs h5 hc1 hc2 hc3 hm
    have hbound : (decide (500 ≤ s) && decide (s < 600)) = false := by
      have hlt : ¬ (500 ≤ s) := by omega
      simp [hlt]
    unfold isRetryableError
    rw [hm, hs]
    simp [hbound, hc1, hc2, hc3]
  · intro post h
    unfold axiosPostWithRetry at h
    cases hp : post 0 with
    | ok v => rw [axiosPostWithRetryGo_ok post 0 2 v hp] at h; simp at h
    | error e =>
      by_cases hr : isRetryableError e
      · exact ⟨e, rfl, hr⟩
      · rw [show (2 : Nat) = 1 + 1 from rfl,
          axiosPostWithRetryGo_stop post 0 1 e hp (by simpa using hr)] at h
        simp at h

/-- Witness for C4: the concrete run failing twice with a connection reset
then succeeding performs exactly the two delays, and a concrete 404 failure
is rethrown at once with no delay. -/
theorem nonstreaming_retry_policy_witness :
    axiosPostWithRetry postTwiceThenOk 2 = (Except.ok "done", [1000, 2000]) ∧
    axiosPostWithRetry (fun _ => (Except.error http404Err : Except AxiosErr String)) 2 =
      (Except.error http404Err, []) ∧
    isRetryableError http404Err = false :=
  ⟨(nonstreaming_retry_policy String).2.1 postTwiceThenOk econnresetErr econnresetErr
      "done" rfl (by decide) rfl (by decide) rfl,
    (nonstreaming_retry_policy String).2.2.1 (fun _ => Except.error http404Err)
      http404Err rfl (by decide),
    (nonstreaming_retry_policy String).2.2.2.1 http404Err 404 rfl (by decide)
      (by decide) (by decide) (by decide) (by decide)⟩

theorem mapSet_same {β : Type} (m : FileMap β) (k : String) (v : β) :
    mapSet m k v k = some v := by
  simp [mapSet]

theorem mapDel_same {β : Type} (m : FileMap β) (k : String) :
    mapDel m k k = none := by
  simp [mapDel]

theorem handleApplyFileChange_spec (st : FCState) (p content target : String)
    (hres : resolveFilePath st.workspaceRoot p = some target) :
    (handleApplyFileChange st p content).1 =
      { st with
        fs := mapSet st.fs target content
        fileBackupMap := if (st.fileBackupMap target).isSome then st.fileBackupMap
          else mapSet st.fileBackupMap target (st.fs target) } := by
  unfold handleApplyFileChange
  rw [hres]
  cases hfs : st.fs target <;> simp [hfs]

/-- C5: the backup entry of a path is captured on the first apply and never
overwritten by a later apply to the same path, so apply A, apply B, revert
restores the state preceding the first apply: the first apply records the
pre-A content (or the absent sentinel), the second apply leaves the whole
backup map unchanged while the file holds B, and the revert restores the
file at the target exactly to its pre-A state. -/
theorem backup_first_apply_wins (st : FCState) (p a b target : String)
    (hres : resolveFilePath st.workspaceRoot p = some target)
    (hnb : st.fileBackupMap target = none) :
    (handleApplyFileChange st p a).1.fileBackupMap target = some (st.fs target) ∧
    (handleApplyFileChange (handleApplyFileChange st p a).1 p b).1.fileBackupMap =
      (handleApplyFileChange st p a).1.fileBackupMap ∧
    (handleApplyFileChange (handleApplyFileChange st p a).1 p b).1.fs target = some b ∧
    (handleRevertFile
      (handleApplyFileChange (handleApplyFileChange st p a).1 p b).1 p).1.fs target =
      st.fs target := by
  have h1 := handleApplyFileChange_spec st p a target hres
  have hb1 : (handleApplyFileChange st p a).1.fileBackupMap target = some (st.fs target) := by
    rw [h1]
    simp [hnb, mapSet_same]
  have hres1 : resolveFilePath (handleApplyFileChange st p a).1.workspaceRoot p = some target := by
    rw [h1]
    exact hres
  have h2 := handleApplyFileChange_spec (handleApplyFileChange st p a).1 p b target hres1
  have hb2 : (handleApplyFileChange (handleApplyFileChange st p a).1 p b).1.fileBackupMap =
      (handleApplyFileChange st p a).1.fileBackupMap := by
    rw [h2]
    simp [hb1]
  refine ⟨hb1, hb2, ?_, ?_⟩
  · rw [h2]
    simp [mapSet_same]
  · unfold handleRevertFile
    have hres2 : resolveFilePath
        (handleApplyFileChange (handleApplyFileChange st p a).1 p b).1.workspaceRoot p =
        some target := by
      rw [h2, h1]
      exact hres
    rw [hres2]
    have hb2t : (handleApplyFileChange (handleApplyFileChange st p a).1 p b).1.fileBackupMap
        target = some (st.fs target) := by
      rw [hb2, hb1]
    cases hfs : st.fs target with
    | none =>
      rw [hfs] at hb2t
      simp [hb2t, mapDel_same]
    | some orig =>
      rw [hfs] at hb2t
      simp [hb2t, mapSet_same]

/-- Witness for C5 at a concrete workspace state with one existing file. -/
theorem backup_first_apply_wins_witness :
    (handleApplyFileChange wsState "a.txt" "AAA").1.fileBackupMap "/ws/a.txt" =
      some (wsState.fs "/ws/a.txt") ∧
    (handleApplyFileChange (handleApplyFileChange wsState "a.txt" "AAA").1 "a.txt"
      "BBB").1.fileBackupMap =
      (handleApplyFileChange wsState "a.txt" "AAA").1.fileBackupMap ∧
    (handleApplyFileChange (handleApplyFileChange wsState "a.txt" "AAA").1 "a.txt"
      "BBB").1.fs "/ws/a.txt" = some "BBB" ∧
    (handleRevertFile (handleApplyFileChange (handleApplyFileChange wsState "a.txt"
      "AAA").1 "a.txt" "BBB").1 "a.txt").1.fs "/ws/a.txt" = wsState.fs "/ws/a.txt" :=
  backup_first_apply_wins wsState "a.txt" "AAA" "BBB" "/ws/a.txt" (by decide) rfl

/-- C6: revert after exactly one apply restores the captured original text
byte for byte; revert after an apply that created the file (absent-sentinel
backup) deletes it; and revert on a path never applied in the session
reports the no-backup failure and changes no file. -/
theorem revert_semantics (st : FCState) (p a orig target : String)
    (hres : resolveFilePath st.workspaceRoot p = some target) :
    (st.fs target = some orig → st.fileBackupMap target = none →
      (handleRevertFile (handleApplyFileChange st p a).1 p).1.fs target = some orig ∧
      (handleRevertFile (handleApplyFileChange st p a).1 p).2 = RevertOutcome.reverted) ∧
    (st.fs target = none → st.fileBackupMap target = none →
      (handleApplyFileChange st p a).1.fs target = some a ∧
      (handleRevertFile (handleApplyFileChange st p a).1 p).1.fs target = none ∧
      (handleRevertFile (handleApplyFileChange st p a).1 p).2 = RevertOutcome.reverted) ∧
    (st.fileBackupMap target = none →
      handleRevertFile st p = (st, RevertOutcome.noBackupFound)) := by
  refine ⟨?_, ?_, ?_⟩
  · intro hfs hnb
    have h1 := handleApplyFileChange_spec st p a target hres
    have hres1 : resolveFilePath (handleApplyFileChange st p a).1.workspaceRoot p =
        some target := by
      rw [h1]; exact hres
    have hb1 : (handleApplyFileChange st p a).1.fileBackupMap target = some (some orig) := by
      rw [h1]
      simp [hnb, hfs, mapSet_same]
    unfold handleRevertFile
    rw [hres1]
    simp [hb1, mapSet_same]
  · intro hfs hnb
    have h1 := handleApplyFileChange_spec st p a target hres
    have hres1 : resolveFilePath (handleApplyFileChange st p a).1.workspaceRoot p =
        some target := by
      rw [h1]; exact hres
    have hb1 : (handleApplyFileChange st p a).1.fileBackupMap target = some none := by
      rw [h1]
      simp [hnb, hfs, mapSet_same]
    refine ⟨by rw [h1]; simp [mapSet_same], ?_, ?_⟩
    · unfold handleRevertFile
      rw [hres1]
      simp [hb1, mapDel_same]
    · unfold handleRevertFile
      rw [hres1]
      simp [hb1]
  · intro hnb
    unfold handleRevertFile
    rw [hres]
    simp [hnb]

/-- Witness for C6 covering the three scenarios at concrete states. -/
theorem revert_semantics_witness :
    (handleRevertFile (handleApplyFileChange wsState "a.txt" "AAA").1 "a.txt").1.fs
      "/ws/a.txt" = some "original" ∧
    (handleApplyFileChange wsState "b.txt" "NEW").1.fs "/ws/b.txt" = some "NEW" ∧
    (handleRevertFile (handleApplyFileChange wsState "b.txt" "NEW").1 "b.txt").1.fs
      "/ws/b.txt" = none ∧
    handleRevertFile wsState "c.txt" = (wsState, RevertOutcome.noBackupFound) := by
  refine ⟨((revert_semantics wsState "a.txt" "AAA" "original" "/ws/a.txt"
      (by decide)).1 (by decide) rfl).1, ?_, ?_, ?_⟩
  · exact ((revert_semantics wsState "b.txt" "NEW" "" "/ws/b.txt"
      (by decide)).2.1 (by decide) rfl).1
  · exact ((revert_semantics wsState "b.txt" "NEW" "" "/ws/b.txt"
      (by decide)).2.1 (by decide) rfl).2.1
  · exact (revert_semantics wsState "c.txt" "" "" "/ws/c.txt"
      (by decide)).2.2 rfl
